import Mathlib

/-!
Verification of the lock-free ring-buffer index manager
(bcec_atomicringbufferindexmanager.cpp).

The shallow embedding below translates the component into Lean.  Machine
words (C unsigned int, 32 bits) are modelled as Nat together with explicit
reductions modulo 2^32 exactly where C arithmetic wraps; signed ints are
modelled by reinterpreting a word below 2^32 as a two-complement value.
The slot-state array is modelled as a function from positions to words.
The single-threaded manipulators are modelled as fuel-bounded executable
functions; the loops of the source consume one unit of fuel per iteration
and return none when the fuel runs out.
-/

/-- Bitmask used to determine the element-state value from a state word. -/
def e_ELEMENT_STATE_MASK : Nat := 0x3

/-- Number of bits to left-shift the generation count in a state word. -/
def e_GENERATION_COUNT_SHIFT : Nat := 0x2

/-- Maximum generation count representable in a state word:
1 shifted left by (sizeof(int)*8 - 2) bits, with sizeof(int) = 4. -/
def e_NUM_REPRESENTABLE_ELEMENT_STATE_GENERATIONS : Nat := 2 ^ 30

/-- Bitmask for the disabled-state bit of the push index:
1 shifted left by (sizeof(int)*8 - 1) bits. -/
def e_DISABLED_STATE_MASK : Nat := 2 ^ 31

/-- Maximum representable number of combined index and generation values. -/
def e_NUM_REPRESENTABLE_COMBINED_INDICES : Nat := e_DISABLED_STATE_MASK

/-- Element state: element is empty and available for writing. -/
def e_EMPTY : Nat := 0

/-- Element state: element is reserved for writing. -/
def e_WRITING : Nat := 1

/-- Element state: element has a value in it. -/
def e_FULL : Nat := 2

/-- Element state: element is reserved for reading. -/
def e_READING : Nat := 3

/-- Maximum supportable capacity, 1 shifted left by (sizeof(int)*8 - 2). -/
def e_MAX_CAPACITY : Nat := 2 ^ 30

/-- Reinterpret a 32-bit word as a signed (two-complement) value, the
effect of a C cast from unsigned int to int. -/
def toInt32 (n : Nat) : Int :=
  if n < 2 ^ 31 then (n : Int) else (n : Int) - 2 ^ 32

/-- Reinterpret a signed value as a 32-bit word, the effect of a C cast
from int to unsigned int. -/
def toUInt32 (i : Int) : Nat :=
  (i % (2 ^ 32 : Int)).toNat

/-- Return an encoded state word comprising the given generation and
element state: (generation << e_GENERATION_COUNT_SHIFT) | indexState,
with the shift wrapping at 32 bits as in C. -/
def encodeElementState (generation indexState : Nat) : Nat :=
  ((generation <<< e_GENERATION_COUNT_SHIFT) % 2 ^ 32) ||| indexState

/-- Return the generation count of the given encoded state word. -/
def decodeGenerationFromElementState (encodedState : Nat) : Nat :=
  encodedState >>> e_GENERATION_COUNT_SHIFT

/-- Return the element state of the given encoded state word. -/
def decodeStateFromElementState (encodedState : Nat) : Nat :=
  encodedState &&& e_ELEMENT_STATE_MASK

/-- Return true if the given push-index word has the disabled flag set. -/
def isDisabledFlagSet (encodedPushIndex : Nat) : Bool :=
  encodedPushIndex &&& e_DISABLED_STATE_MASK ≠ 0

/-- Return the push index of the given word, discarding the disabled
flag: the C expression is a bitwise and with the 32-bit complement of
e_DISABLED_STATE_MASK, that is with 2^31 - 1. -/
def discardDisabledFlag (encodedPushIndex : Nat) : Nat :=
  encodedPushIndex &&& (e_DISABLED_STATE_MASK - 1)

/-- Class method numRepresentableGenerations of the index manager. -/
def numRepresentableGenerations (capacity : Nat) : Nat :=
  min (e_NUM_REPRESENTABLE_COMBINED_INDICES / capacity)
      e_NUM_REPRESENTABLE_ELEMENT_STATE_GENERATIONS

/-- Class method circularDifference of the index manager.  The C source
computes the int difference of two unsigned values (which wraps modulo
2^32 and is then reinterpreted as signed) and then normalizes by the
given modulo. -/
def circularDifference (minuend subtrahend modulo : Nat) : Int :=
  let difference : Int := toInt32 ((minuend + 2 ^ 32 - subtrahend) % 2 ^ 32)
  if difference > ((modulo / 2 : Nat) : Int) then
    difference - modulo
  else if difference < -((modulo / 2 : Nat) : Int) then
    difference + modulo
  else
    difference

-- Basic facts about the encoding.

theorem encodeElementState_eq (generation indexState : Nat)
    (h : indexState < 4) :
    encodeElementState generation indexState =
      4 * (generation % 2 ^ 30) + indexState := by
  unfold encodeElementState e_GENERATION_COUNT_SHIFT
  have hshift : generation <<< 2 = generation * 2 ^ 2 := Nat.shiftLeft_eq _ _
  have hmod : generation * 2 ^ 2 % 2 ^ 32 = 2 ^ 2 * (generation % 2 ^ 30) := by
    rw [Nat.mul_comm, show (2 ^ 32 : Nat) = 2 ^ 2 * 2 ^ 30 by norm_num,
        Nat.mul_mod_mul_left]
  rw [hshift, hmod, ← Nat.mul_add_lt_is_or (by exact h) (generation % 2 ^ 30)]

theorem decodeState_encode (generation indexState : Nat)
    (h : indexState < 4) :
    decodeStateFromElementState (encodeElementState generation indexState) =
      indexState := by
  rw [encodeElementState_eq generation indexState h]
  unfold decodeStateFromElementState e_ELEMENT_STATE_MASK
  have : (0x3 : Nat) = 2 ^ 2 - 1 := by norm_num
  rw [this, Nat.and_pow_two_sub_one_eq_mod]
  omega

theorem decodeGeneration_encode (generation indexState : Nat)
    (hg : generation < 2 ^ 30) (h : indexState < 4) :
    decodeGenerationFromElementState
        (encodeElementState generation indexState) = generation := by
  rw [encodeElementState_eq generation indexState h]
  unfold decodeGenerationFromElementState e_GENERATION_COUNT_SHIFT
  rw [Nat.shiftRight_eq_div_pow]
  omega

/-- The index manager object.  The slot-state array d_states is modelled
as a function from positions to state words (only positions below
d_capacity are meaningful); the remaining fields mirror the data members
of the C++ class. -/
structure AtomicRingBufferIndexManager where
  d_pushIndex : Nat
  d_popIndex : Nat
  d_states : Nat → Nat
  d_capacity : Nat
  d_maxGeneration : Nat
  d_maxCombinedIndex : Nat

abbrev Mgr := AtomicRingBufferIndexManager

/-- Construction from a capacity: cursors start at zero, every slot word
is default constructed to zero (generation 0, e_EMPTY), and the derived
constants are computed as in the constructor of the source. -/
def mkMgr (capacity : Nat) : Mgr where
  d_pushIndex := 0
  d_popIndex := 0
  d_states := fun _ => 0
  d_capacity := capacity
  d_maxGeneration := numRepresentableGenerations capacity - 1
  d_maxCombinedIndex := numRepresentableGenerations capacity * capacity - 1

/-- Pointwise update of the slot-state array. -/
def fupd (f : Nat → Nat) (i v : Nat) : Nat → Nat :=
  fun j => if j = i then v else f j

/-- Modelled from the spec: the header-only helper nextCombinedIndex is
not under src; the spec defines it as (ci + 1) mod (maxCombinedIndex + 1). -/
def nextCombinedIndex (m : Mgr) (combinedIndex : Nat) : Nat :=
  (combinedIndex + 1) % (m.d_maxCombinedIndex + 1)

/-- Modelled from the spec: the header-only helper nextGeneration is not
under src; the spec defines it as (g + 1) mod (maxGeneration + 1). -/
def nextGeneration (m : Mgr) (generation : Nat) : Nat :=
  (generation + 1) % (m.d_maxGeneration + 1)

inductive PushResult where
  | success (generation index : Nat)
  | queueFull
  | disabled
deriving DecidableEq, Repr

inductive PopResult where
  | success (generation index : Nat)
  | queueEmpty
deriving DecidableEq, Repr

inductive ClearResult where
  | success (generation index : Nat)
  | failure
deriving DecidableEq, Repr

/-- Loop body of reservePushIndex.  The argument loadedPushIndex is the
most recently loaded value of d_pushIndex; one unit of fuel is consumed
per iteration of the retry loop. -/
def reservePushIndexLoop (m : Mgr) :
    Nat → Nat → Option (PushResult × Mgr)
  | 0, _ => none
  | fuel + 1, loadedPushIndex =>
    if isDisabledFlagSet loadedPushIndex then
      some (.disabled, m)
    else
      let combinedIndex := discardDisabledFlag loadedPushIndex
      let currGeneration := combinedIndex / m.d_capacity
      let currIndex := combinedIndex % m.d_capacity
      let compare := encodeElementState currGeneration e_EMPTY
      let swap := encodeElementState currGeneration e_WRITING
      let was := m.d_states currIndex
      if compare = was then
        -- the state CAS succeeded: the index is acquired; after the loop
        -- the push index is advanced by a best-effort CAS
        let m1 : Mgr := { m with d_states := fupd m.d_states currIndex swap }
        let next := nextCombinedIndex m1 combinedIndex
        let m2 : Mgr :=
          if m1.d_pushIndex = combinedIndex then
            { m1 with d_pushIndex := next }
          else m1
        some (.success currGeneration currIndex, m2)
      else
        let elementGeneration := decodeGenerationFromElementState was
        -- int difference = (int)(currGeneration - elementGeneration):
        -- the unsigned subtraction wraps modulo 2^32
        let diffWord := (currGeneration + 2 ^ 32 - elementGeneration) % 2 ^ 32
        -- the test (1 == difference || -d_maxGeneration == difference):
        -- the second comparison is performed on unsigned operands
        if diffWord = 1 ∨ diffWord = (2 ^ 32 - m.d_maxGeneration) % 2 ^ 32 then
          if decodeStateFromElementState was = e_READING then
            -- yield, reload the push index and retry
            reservePushIndexLoop m fuel m.d_pushIndex
          else
            some (.queueFull, m)
        else
          -- best-effort CAS advancing the push index; testAndSwap
          -- returns the previous value of d_pushIndex
          let next := nextCombinedIndex m combinedIndex
          if m.d_pushIndex = combinedIndex then
            reservePushIndexLoop
              { m with d_pushIndex := next } fuel combinedIndex
          else
            reservePushIndexLoop m fuel m.d_pushIndex

/-- Manipulator reservePushIndex, entered with a relaxed load of
d_pushIndex. -/
def reservePushIndex (fuel : Nat) (m : Mgr) : Option (PushResult × Mgr) :=
  reservePushIndexLoop m fuel m.d_pushIndex

/-- Manipulator commitPushIndex: a plain store marking the cell full. -/
def commitPushIndex (m : Mgr) (generation index : Nat) : Mgr :=
  { m with
    d_states := fupd m.d_states index (encodeElementState generation e_FULL) }

/-- Loop body of reservePopIndex. -/
def reservePopIndexLoop (m : Mgr) :
    Nat → Nat → Option (PopResult × Mgr)
  | 0, _ => none
  | fuel + 1, loadedPopIndex =>
    let currGeneration := loadedPopIndex / m.d_capacity
    let currIndex := loadedPopIndex % m.d_capacity
    let compare := encodeElementState currGeneration e_FULL
    let swap := encodeElementState currGeneration e_READING
    let was := m.d_states currIndex
    if compare = was then
      let m1 : Mgr := { m with d_states := fupd m.d_states currIndex swap }
      let m2 : Mgr :=
        if m1.d_popIndex = loadedPopIndex then
          { m1 with d_popIndex := nextCombinedIndex m1 loadedPopIndex }
        else m1
      some (.success currGeneration currIndex, m2)
    else
      if currGeneration ≠ decodeGenerationFromElementState was then
        some (.queueEmpty, m)
      else
        let state := decodeStateFromElementState was
        if state = e_EMPTY then
          some (.queueEmpty, m)
        else if state = e_WRITING ∨ state = e_FULL then
          -- yield, reload the pop index and retry
          reservePopIndexLoop m fuel m.d_popIndex
        else
          -- best-effort CAS advancing the pop index
          let next := nextCombinedIndex m loadedPopIndex
          if m.d_popIndex = loadedPopIndex then
            reservePopIndexLoop
              { m with d_popIndex := next } fuel loadedPopIndex
          else
            reservePopIndexLoop m fuel m.d_popIndex

/-- Manipulator reservePopIndex, entered with a relaxed load of
d_popIndex. -/
def reservePopIndex (fuel : Nat) (m : Mgr) : Option (PopResult × Mgr) :=
  reservePopIndexLoop m fuel m.d_popIndex

/-- Manipulator commitPopIndex: a plain store marking the cell empty at
the subsequent generation. -/
def commitPopIndex (m : Mgr) (generation index : Nat) : Mgr :=
  { m with
    d_states := fupd m.d_states index
      (encodeElementState (nextGeneration m generation) e_EMPTY) }

/-- Loop body of clearPopIndex.  The Int64 difference of the source is
the value of the wrapped unsigned 32-bit subtraction (both operands are
unsigned int, so the subtraction wraps before widening to Int64). -/
def clearPopIndexLoop (m : Mgr) (endGeneration endIndex : Nat) :
    Nat → Nat → Option (ClearResult × Mgr)
  | 0, _ => none
  | fuel + 1, loadedCombinedIndex =>
    let endCombinedIndex :=
      (endGeneration * m.d_capacity + endIndex) % 2 ^ 32
    let difference0 : Int :=
      ((endCombinedIndex + 2 ^ 32 - loadedCombinedIndex) % 2 ^ 32 : Nat)
    let difference : Int :=
      if loadedCombinedIndex ≥ m.d_maxCombinedIndex - m.d_capacity ∧
          endCombinedIndex < m.d_capacity then
        difference0 + (m.d_maxCombinedIndex + 1 : Nat)
      else
        difference0
    if difference ≤ 0 then
      some (.failure, m)
    else
      let currentIndex := loadedCombinedIndex % m.d_capacity
      let currentGeneration := loadedCombinedIndex / m.d_capacity
      let compare := encodeElementState currentGeneration e_FULL
      let swap := encodeElementState currentGeneration e_READING
      let was := m.d_states currentIndex
      if compare = was then
        -- disposed of this index: advance the pop index by a best-effort
        -- CAS, then mark the disposed cell empty
        let m1 : Mgr := { m with d_states := fupd m.d_states currentIndex swap }
        let m2 : Mgr :=
          if m1.d_popIndex = loadedCombinedIndex then
            { m1 with d_popIndex := nextCombinedIndex m1 loadedCombinedIndex }
          else m1
        let w3 := encodeElementState (nextGeneration m2 currentGeneration) e_EMPTY
        let m3 : Mgr := { m2 with d_states := fupd m2.d_states currentIndex w3 }
        some (.success currentGeneration currentIndex, m3)
      else
        let state := decodeStateFromElementState was
        if state = e_WRITING ∨ state = e_FULL then
          -- yield, reload the pop index and retry
          clearPopIndexLoop m endGeneration endIndex fuel m.d_popIndex
        else
          let next := nextCombinedIndex m loadedCombinedIndex
          if m.d_popIndex = loadedCombinedIndex then
            clearPopIndexLoop { m with d_popIndex := next }
              endGeneration endIndex fuel loadedCombinedIndex
          else
            clearPopIndexLoop m endGeneration endIndex fuel m.d_popIndex

/-- Manipulator clearPopIndex, entered with a relaxed load of d_popIndex. -/
def clearPopIndex (fuel : Nat) (m : Mgr) (endGeneration endIndex : Nat) :
    Option (ClearResult × Mgr) :=
  clearPopIndexLoop m endGeneration endIndex fuel m.d_popIndex

/-- Accessor length, expressed over the two loaded cursor words so that
any interleaving of the loads can be analysed. -/
def lengthOnLoaded (m : Mgr) (pushWord popWord : Nat) : Nat :=
  let combinedPushIndex := discardDisabledFlag pushWord
  let combinedPopIndex := popWord
  -- int difference = combinedPushIndex - combinedPopIndex (wraps mod 2^32,
  -- then reinterpreted as signed)
  let difference : Int :=
    toInt32 ((combinedPushIndex + 2 ^ 32 - combinedPopIndex) % 2 ^ 32)
  if 0 ≤ difference then
    if (m.d_capacity : Int) < difference then
      0
    else
      difference.toNat
  else if difference < -((m.d_maxCombinedIndex / 2 : Nat) : Int) then
    -- difference += d_maxCombinedIndex + 1 is computed in unsigned
    -- arithmetic and stored back into the int
    let difference2 : Int :=
      toInt32 (((difference + 2 ^ 32).toNat + (m.d_maxCombinedIndex + 1))
        % 2 ^ 32)
    min (toUInt32 difference2) m.d_capacity
  else
    0

/-- Accessor length of the manager itself. -/
def Mgr.length (m : Mgr) : Nat :=
  lengthOnLoaded m m.d_pushIndex m.d_popIndex

/-- Reserve one push index and commit it, returning the reserved pair
and the resulting manager. -/
def pushStep (m : Mgr) : Option ((Nat × Nat) × Mgr) :=
  match reservePushIndex 8 m with
  | some (PushResult.success g i, m1) => some ((g, i), commitPushIndex m1 g i)
  | _ => none

/-- Reserve one pop index and commit it, returning the reserved pair and
the resulting manager. -/
def popStep (m : Mgr) : Option ((Nat × Nat) × Mgr) :=
  match reservePopIndex 8 m with
  | some (PopResult.success g i, m1) => some ((g, i), commitPopIndex m1 g i)
  | _ => none

/-- Push one element, keeping only the resulting manager. -/
def pushOne (m : Mgr) : Option Mgr := (pushStep m).map (·.2)

/-- Pop one element, keeping only the resulting manager. -/
def popOne (m : Mgr) : Option Mgr := (popStep m).map (·.2)

-- ======================================================================
-- Claim theorems
-- ======================================================================

/-- C2: starting from a freshly constructed manager with capacity 4,
four successive reservePushIndex plus commitPushIndex calls succeed and
return positions 0, 1, 2, 3 at generation 0; a fifth reservePushIndex
returns QUEUE_FULL; after one reservePopIndex plus commitPopIndex, which
returns generation 0 and position 0, the next reservePushIndex succeeds
and returns generation 1, position 0. -/
theorem pushPopRoundTripScenario :
    ((pushStep (mkMgr 4)).bind fun a =>
      (pushStep a.2).bind fun b =>
      (pushStep b.2).bind fun c =>
      (pushStep c.2).bind fun d =>
      (reservePushIndex 8 d.2).bind fun e =>
      (popStep e.2).bind fun f =>
      (reservePushIndex 8 f.2).map fun g2 =>
        ([a.1, b.1, c.1, d.1, f.1], e.1, g2.1)) =
      some ([(0, 0), (0, 1), (0, 2), (0, 3), (0, 0)],
        PushResult.queueFull, PushResult.success 1 0) := by
  decide

/-- C4 counterexample: at minuend 0, subtrahend 2, modulo 4, the function
returns -2, which is congruent to 0 - 2 but does not lie in the half-open
interval (-modulo/2, modulo/2]: the left endpoint -2 is attained. -/
theorem circularDifference_interval_counterexample :
    circularDifference 0 2 4 = -2 ∧
      ¬(-(4 : Int) < 2 * circularDifference 0 2 4) := by
  constructor
  · decide
  · decide

/-- C4 amended: for minuend and subtrahend below modulo with
0 < modulo and modulo at most 2^31, circularDifference returns a value
congruent to minuend - subtrahend modulo modulo that lies in the closed
interval [-modulo/2, modulo/2] (stated as -modulo <= 2*result <= modulo);
for even modulo the left endpoint -modulo/2 is attained, so the interval
is closed on the left, not open as the claim states. -/
theorem circularDifference_spec (minuend subtrahend modulo : Nat)
    (hmin : minuend < modulo) (hsub : subtrahend < modulo)
    (hmod : 0 < modulo) (hmod2 : modulo ≤ 2 ^ 31) :
    Int.ModEq (modulo : Int) (circularDifference minuend subtrahend modulo)
        ((minuend : Int) - subtrahend) ∧
    -(modulo : Int) ≤ 2 * circularDifference minuend subtrahend modulo ∧
    2 * circularDifference minuend subtrahend modulo ≤ modulo := by
  have key : toInt32 ((minuend + 2 ^ 32 - subtrahend) % 2 ^ 32) =
      (minuend : Int) - subtrahend := by
    unfold toInt32
    split_ifs with h <;> omega
  unfold circularDifference
  simp only [key]
  split_ifs with h1 h2
  · refine ⟨Int.modEq_iff_dvd.2 ⟨1, by ring⟩, by omega, by omega⟩
  · refine ⟨Int.modEq_iff_dvd.2 ⟨-1, by ring⟩, by omega, by omega⟩
  · exact ⟨Int.ModEq.refl _, by omega, by omega⟩

/-- C4 witness: the amended theorem applied at minuend 5, subtrahend 1,
modulo 7. -/
theorem circularDifference_spec_witness :
    Int.ModEq (7 : Int) (circularDifference 5 1 7) ((5 : Int) - 1) ∧
    -(7 : Int) ≤ 2 * circularDifference 5 1 7 ∧
    2 * circularDifference 5 1 7 ≤ 7 :=
  circularDifference_spec 5 1 7 (by decide) (by decide) (by decide)
    (by norm_num)

/-- C10: for every capacity between 1 and 2^30, the class method
numRepresentableGenerations returns at least 2, so the stored maximum
generation of a freshly constructed manager is at least 1. -/
theorem numRepresentableGenerations_ge_two (capacity : Nat)
    (h0 : 0 < capacity) (hmax : capacity ≤ e_MAX_CAPACITY) :
    2 ≤ numRepresentableGenerations capacity ∧
      1 ≤ (mkMgr capacity).d_maxGeneration := by
  have hdiv : 2 ≤ e_NUM_REPRESENTABLE_COMBINED_INDICES / capacity := by
    rw [Nat.le_div_iff_mul_le h0]
    unfold e_NUM_REPRESENTABLE_COMBINED_INDICES e_DISABLED_STATE_MASK
    unfold e_MAX_CAPACITY at hmax
    omega
  have hge : 2 ≤ numRepresentableGenerations capacity := by
    unfold numRepresentableGenerations
    exact le_min hdiv (by norm_num [e_NUM_REPRESENTABLE_ELEMENT_STATE_GENERATIONS])
  refine ⟨hge, ?_⟩
  show 1 ≤ numRepresentableGenerations capacity - 1
  omega

/-- C10 witness: the theorem applied at capacity 3. -/
theorem numRepresentableGenerations_ge_two_witness :
    2 ≤ numRepresentableGenerations 3 ∧ 1 ≤ (mkMgr 3).d_maxGeneration :=
  numRepresentableGenerations_ge_two 3 (by decide) (by norm_num [e_MAX_CAPACITY])

/-- C5 counterexample: at capacity 2 the stored maximum combined index is
2^31 - 1 while maxGeneration * capacity is 2^31 - 2, so the claimed
equality fails. -/
theorem maxCombinedIndex_counterexample :
    ¬((mkMgr 2).d_maxCombinedIndex = (mkMgr 2).d_maxGeneration * 2) := by
  decide

/-- C5 amended: for every valid capacity, the stored maximum combined
index equals maxGeneration * capacity + (capacity - 1), that is
numRepresentableGenerations(capacity) * capacity - 1; the claimed value
maxGeneration * capacity is short by capacity - 1 whenever capacity
exceeds 1. -/
theorem maxCombinedIndex_eq (capacity : Nat) (h0 : 0 < capacity)
    (hmax : capacity ≤ e_MAX_CAPACITY) :
    (mkMgr capacity).d_maxCombinedIndex =
      (mkMgr capacity).d_maxGeneration * capacity + (capacity - 1) := by
  have hge := (numRepresentableGenerations_ge_two capacity h0 hmax).1
  show numRepresentableGenerations capacity * capacity - 1 =
    (numRepresentableGenerations capacity - 1) * capacity + (capacity - 1)
  obtain ⟨k, hk⟩ : ∃ k, numRepresentableGenerations capacity = k + 1 :=
    ⟨numRepresentableGenerations capacity - 1, by omega⟩
  rw [hk, Nat.succ_mul, Nat.add_sub_cancel]
  set a := k * capacity
  omega

/-- C5 witness: the amended theorem applied at capacity 4. -/
theorem maxCombinedIndex_eq_witness :
    (mkMgr 4).d_maxCombinedIndex =
      (mkMgr 4).d_maxGeneration * 4 + (4 - 1) :=
  maxCombinedIndex_eq 4 (by decide) (by norm_num [e_MAX_CAPACITY])

/-- C7: whenever the disabled bit of the push cursor is set, a call to
reservePushIndex returns DISABLED at once and returns the manager
unchanged, so neither the slot-state array nor either cursor is
modified. -/
theorem reservePushIndex_disabled (m : Mgr) (fuel : Nat)
    (h : isDisabledFlagSet m.d_pushIndex = true) :
    reservePushIndex (fuel + 1) m = some (PushResult.disabled, m) := by
  simp [reservePushIndex, reservePushIndexLoop, h]

/-- C7 witness: a capacity-1 manager whose push cursor carries the
disabled bit. -/
def mgrDisabled : Mgr where
  d_pushIndex := 2 ^ 31
  d_popIndex := 0
  d_states := fun _ => 0
  d_capacity := 1
  d_maxGeneration := numRepresentableGenerations 1 - 1
  d_maxCombinedIndex := numRepresentableGenerations 1 * 1 - 1

theorem reservePushIndex_disabled_witness :
    isDisabledFlagSet mgrDisabled.d_pushIndex = true ∧
      reservePushIndex 5 mgrDisabled = some (PushResult.disabled, mgrDisabled) :=
  ⟨by decide, reservePushIndex_disabled mgrDisabled 4 (by decide)⟩

/-- C8: if the slot at a position below capacity holds the word encoding
the given generation with state READING (the caller holds the READING
reservation) and the generation is at most maxGeneration, then
commitPopIndex stores the word encoding the next generation with state
EMPTY into that slot.  The helper nextGeneration is modelled from the
spec as (g + 1) mod (maxGeneration + 1). -/
theorem commitPopIndex_sets_empty (m : Mgr) (generation index : Nat)
    (hidx : index < m.d_capacity) (hgen : generation ≤ m.d_maxGeneration)
    (hheld : m.d_states index = encodeElementState generation e_READING) :
    (commitPopIndex m generation index).d_states index =
      encodeElementState (nextGeneration m generation) e_EMPTY := by
  simp [commitPopIndex, fupd]

/-- C8 witness: a capacity-1 manager whose slot 0 is held for reading at
generation 0. -/
def mgrReading : Mgr where
  d_pushIndex := 1
  d_popIndex := 0
  d_states := fun _ => encodeElementState 0 e_READING
  d_capacity := 1
  d_maxGeneration := numRepresentableGenerations 1 - 1
  d_maxCombinedIndex := numRepresentableGenerations 1 * 1 - 1

theorem commitPopIndex_sets_empty_witness :
    0 < mgrReading.d_capacity ∧
      mgrReading.d_states 0 = encodeElementState 0 e_READING ∧
      (commitPopIndex mgrReading 0 0).d_states 0 =
        encodeElementState (nextGeneration mgrReading 0) e_EMPTY :=
  ⟨by decide, by decide,
    commitPopIndex_sets_empty mgrReading 0 0 (by decide) (by decide) (by decide)⟩

/-- C9: for every generation representable in the upper 30 bits of the
state word and every element state among EMPTY, WRITING, FULL and
READING, decoding the encoded word recovers both the generation and the
state. -/
theorem encode_decode_roundtrip (generation state : Nat)
    (hg : generation < 2 ^ 30)
    (hs : state = e_EMPTY ∨ state = e_WRITING ∨ state = e_FULL ∨
      state = e_READING) :
    decodeGenerationFromElementState
        (encodeElementState generation state) = generation ∧
      decodeStateFromElementState
        (encodeElementState generation state) = state := by
  have h4 : state < 4 := by
    unfold e_EMPTY e_WRITING e_FULL e_READING at hs
    omega
  exact ⟨decodeGeneration_encode generation state hg h4,
    decodeState_encode generation state h4⟩

/-- C9 witness: the theorem applied at generation 7, state FULL. -/
theorem encode_decode_roundtrip_witness :
    decodeGenerationFromElementState (encodeElementState 7 e_FULL) = 7 ∧
      decodeStateFromElementState (encodeElementState 7 e_FULL) = e_FULL :=
  encode_decode_roundtrip 7 e_FULL (by norm_num)
    (Or.inr (Or.inr (Or.inl rfl)))

/-- C3: for every pair of loaded cursor words whose disabled-bit-stripped
combined indices are at most the maximum combined index of a freshly
constructed manager of valid capacity, length returns a value between 0
and the capacity.  The lower bound holds because the result is a natural
number; every return path of the source is shown to stay at or below the
capacity. -/
theorem length_le_capacity (capacity pushWord popWord : Nat)
    (h0 : 0 < capacity) (hmax : capacity ≤ e_MAX_CAPACITY)
    (hpush : discardDisabledFlag pushWord ≤ (mkMgr capacity).d_maxCombinedIndex)
    (hpop : popWord ≤ (mkMgr capacity).d_maxCombinedIndex) :
    lengthOnLoaded (mkMgr capacity) pushWord popWord ≤ capacity := by
  simp only [lengthOnLoaded]
  split_ifs with h1 h2 h3
  · exact Nat.zero_le _
  · simp only [mkMgr] at h2 ⊢
    omega
  · simp only [mkMgr]
    exact min_le_right _ _
  · exact Nat.zero_le _

/-- C3 witness: the theorem applied at capacity 4 with loaded cursor
words 2 and 0, where length evaluates to 2. -/
theorem length_le_capacity_witness :
    discardDisabledFlag 2 ≤ (mkMgr 4).d_maxCombinedIndex ∧
      lengthOnLoaded (mkMgr 4) 2 0 = 2 ∧
      lengthOnLoaded (mkMgr 4) 2 0 ≤ 4 :=
  ⟨by decide, by decide,
    length_le_capacity 4 2 0 (by decide) (by norm_num [e_MAX_CAPACITY])
      (by decide) (by decide)⟩

/-- The manager state reached from a fresh capacity-4 manager by four
pushes, two pops, two pushes, and three more pops: the pop cursor is at
combined index 5 (generation 1, position 1) and slot 1 holds generation
1, state FULL. -/
def c6State : Option Mgr :=
  (some (mkMgr 4)).bind pushOne |>.bind pushOne |>.bind pushOne
    |>.bind pushOne |>.bind popOne |>.bind popOne |>.bind pushOne
    |>.bind pushOne |>.bind popOne |>.bind popOne |>.bind popOne

/-- C6 (code-bug evaluation): on the reachable state of c6State the pop
cursor is at combined index 5 while the boundary passed to clearPopIndex
is endGeneration 0, endIndex 3, that is combined index 3, so the signed
distance from the boundary to the cursor is 3 - 5 = -2 and the
wraparound special case does not apply (5 is far below
maxCombinedIndex - capacity); the claim requires FAILURE, but the call
disposes of generation 1, position 1 and returns success, because the
source computes the difference by an unsigned 32-bit subtraction (giving
2^32 - 2, a positive value) before widening it to a 64-bit signed
integer. -/
theorem clearPopIndex_pastBoundary_success :
    c6State.map (fun m => m.d_popIndex) = some 5 ∧
      (c6State.bind fun m => (clearPopIndex 8 m 0 3).map fun r => r.1) =
        some (ClearResult.success 1 1) := by
  constructor
  · decide
  · decide

-- ======================================================================
-- Concurrent interleaving model for the reservation protocol
-- ======================================================================

/-- Ownership mode of a reservation held between a successful reserve
CAS and the corresponding commit, dispose or abort store. -/
inductive Mode where
  | writing
  | reading
deriving DecidableEq

/-- State tag stored in the slot word while a reservation is held. -/
def tagOf : Mode → Nat
  | Mode.writing => e_WRITING
  | Mode.reading => e_READING

/-- A reservation: the generation and position returned by a successful
reserve call, together with its mode. -/
structure Reservation where
  gen : Nat
  pos : Nat
  mode : Mode
deriving DecidableEq

/-- Shared state of one index manager as seen by any number of threads:
the slot-state array, the two cursor words, and the (ghost) collection
of currently held reservations. -/
structure SysState where
  states : Nat → Nat
  pushWord : Nat
  popWord : Nat
  held : List Reservation

/-- State after construction: every slot word zero (generation 0,
EMPTY), both cursors zero, no reservation held. -/
def initSys : SysState where
  states := fun _ => 0
  pushWord := 0
  popWord := 0
  held := []

/-- One atomic step of any thread, restricted to the operations the
source performs on the shared words.  Every mutation of a slot word in
the source is one of: the reserve-push CAS from (g, EMPTY) to
(g, WRITING); the commit-push store of (g, FULL); the reserve-pop CAS
from (g, FULL) to (g, READING), also performed by clearPopIndex; the
commit-pop store of (g+1 mod maxGen+1, EMPTY), also performed by
clearPopIndex when disposing and by abortPushIndexReservation.  Cursor
words are only hints and may be overwritten arbitrarily here, which
over-approximates every load, store and CAS the source performs on
them. -/
inductive SysStep (capacity maxGen : Nat) : SysState → SysState → Prop where
  | reserveWrite (s : SysState) (g p : Nat) (hp : p < capacity)
      (hs : s.states p = encodeElementState g e_EMPTY) :
      SysStep capacity maxGen s
        ⟨fupd s.states p (encodeElementState g e_WRITING),
          s.pushWord, s.popWord, ⟨g, p, Mode.writing⟩ :: s.held⟩
  | commitWrite (s : SysState) (g p : Nat)
      (hm : (⟨g, p, Mode.writing⟩ : Reservation) ∈ s.held) :
      SysStep capacity maxGen s
        ⟨fupd s.states p (encodeElementState g e_FULL),
          s.pushWord, s.popWord,
          s.held.filter (fun r => r ≠ ⟨g, p, Mode.writing⟩)⟩
  | reserveRead (s : SysState) (g p : Nat) (hp : p < capacity)
      (hs : s.states p = encodeElementState g e_FULL) :
      SysStep capacity maxGen s
        ⟨fupd s.states p (encodeElementState g e_READING),
          s.pushWord, s.popWord, ⟨g, p, Mode.reading⟩ :: s.held⟩
  | commitRead (s : SysState) (g p : Nat)
      (hm : (⟨g, p, Mode.reading⟩ : Reservation) ∈ s.held) :
      SysStep capacity maxGen s
        ⟨fupd s.states p
            (encodeElementState ((g + 1) % (maxGen + 1)) e_EMPTY),
          s.pushWord, s.popWord,
          s.held.filter (fun r => r ≠ ⟨g, p, Mode.reading⟩)⟩
  | abortWrite (s : SysState) (g p : Nat)
      (hm : (⟨g, p, Mode.writing⟩ : Reservation) ∈ s.held) :
      SysStep capacity maxGen s
        ⟨fupd s.states p
            (encodeElementState ((g + 1) % (maxGen + 1)) e_EMPTY),
          s.pushWord, s.popWord,
          s.held.filter (fun r => r ≠ ⟨g, p, Mode.writing⟩)⟩
  | setPushWord (s : SysState) (w : Nat) :
      SysStep capacity maxGen s ⟨s.states, w, s.popWord, s.held⟩
  | setPopWord (s : SysState) (w : Nat) :
      SysStep capacity maxGen s ⟨s.states, s.pushWord, w, s.held⟩

/-- Reachability from the freshly constructed state by any interleaving
of atomic steps of any number of threads. -/
def SysReach (capacity maxGen : Nat) (s : SysState) : Prop :=
  Relation.ReflTransGen (SysStep capacity maxGen) initSys s

/-- The protocol invariant: every held reservation sees its own tag and
generation in its slot word, and no two held reservations share a
position. -/
def SysInv (s : SysState) : Prop :=
  (∀ r ∈ s.held, s.states r.pos = encodeElementState r.gen (tagOf r.mode)) ∧
    s.held.Pairwise (fun a b => a.pos ≠ b.pos)

theorem tagOf_lt (mo : Mode) : tagOf mo < 4 := by
  cases mo <;> simp [tagOf, e_WRITING, e_READING]

theorem tagOf_ne_empty (mo : Mode) : tagOf mo ≠ e_EMPTY := by
  cases mo <;> simp [tagOf, e_WRITING, e_READING, e_EMPTY]

theorem tagOf_ne_full (mo : Mode) : tagOf mo ≠ e_FULL := by
  cases mo <;> simp [tagOf, e_WRITING, e_READING, e_FULL]

/-- Words that encode different state tags are different, whatever the
generations are. -/
theorem encode_ne_of_tag_ne (g g' t t' : Nat) (ht : t < 4) (ht' : t' < 4)
    (hne : t ≠ t') :
    encodeElementState g t ≠ encodeElementState g' t' := by
  intro h
  apply hne
  rw [← decodeState_encode g t ht, h, decodeState_encode g' t' ht']

/-- A reservation surviving the removal filter was held and differs from
the removed one. -/
theorem mem_of_mem_filter_ne {l : List Reservation} {r x : Reservation}
    (h : x ∈ l.filter (fun a => a ≠ r)) : x ∈ l ∧ x ≠ r := by
  have := List.of_mem_filter h
  refine ⟨List.mem_of_mem_filter h, ?_⟩
  simpa using this

/-- Under the pairwise-distinct-positions invariant, any two distinct
held reservations occupy distinct positions. -/
theorem pos_ne_of_held {l : List Reservation} {a b : Reservation}
    (hp : l.Pairwise (fun x y => x.pos ≠ y.pos))
    (ha : a ∈ l) (hb : b ∈ l) (hne : a ≠ b) : a.pos ≠ b.pos :=
  List.Pairwise.forall (fun _ _ h => h.symm) hp ha hb hne

/-- If some reservation is held at a position then the slot word at that
position carries a WRITING or READING tag, so any reserve CAS expecting
EMPTY or FULL there fails. -/
theorem no_held_at_pos {s : SysState} (hinv : SysInv s) (g t : Nat)
    (ht : t < 4) (htne : ∀ mo : Mode, t ≠ tagOf mo) {p : Nat}
    (hword : s.states p = encodeElementState g t) :
    ∀ r ∈ s.held, r.pos ≠ p := by
  intro r hr hcontra
  have hw := hinv.1 r hr
  rw [hcontra, hword] at hw
  exact encode_ne_of_tag_ne g r.gen t (tagOf r.mode) ht (tagOf_lt r.mode)
    (htne r.mode) hw

/-- A successful reserve CAS preserves the invariant: the CAS can only
succeed while no reservation is held on the slot, because a held
reservation keeps a WRITING or READING tag in the slot word. -/
theorem sysInv_acquire {s : SysState} (hinv : SysInv s) (g p t0 : Nat)
    (mo : Mode) (ht0 : t0 < 4) (ht0ne : ∀ mo' : Mode, t0 ≠ tagOf mo')
    (hs : s.states p = encodeElementState g t0) :
    SysInv ⟨fupd s.states p (encodeElementState g (tagOf mo)),
      s.pushWord, s.popWord, ⟨g, p, mo⟩ :: s.held⟩ := by
  have hfresh : ∀ r ∈ s.held, r.pos ≠ p :=
    no_held_at_pos hinv g t0 ht0 ht0ne hs
  constructor
  · intro r hr
    rcases List.mem_cons.mp hr with rfl | hr'
    · simp [fupd]
    · have hp' : r.pos ≠ p := hfresh r hr'
      show fupd s.states p (encodeElementState g (tagOf mo)) r.pos = _
      unfold fupd
      rw [if_neg hp']
      exact hinv.1 r hr'
  · exact List.Pairwise.cons (fun b hb => (hfresh b hb).symm) hinv.2

/-- A commit, dispose or abort store preserves the invariant: the slot
being stored to belongs to the reservation being released, and every
other held reservation occupies a different position. -/
theorem sysInv_release {s : SysState} (hinv : SysInv s) (g p : Nat)
    (mo : Mode) (v : Nat)
    (hm : (⟨g, p, mo⟩ : Reservation) ∈ s.held) :
    SysInv ⟨fupd s.states p v, s.pushWord, s.popWord,
      s.held.filter (fun r => r ≠ ⟨g, p, mo⟩)⟩ := by
  constructor
  · intro r hr
    obtain ⟨hrl, hrne⟩ := mem_of_mem_filter_ne hr
    have hpne : r.pos ≠ p := pos_ne_of_held hinv.2 hrl hm hrne
    show fupd s.states p v r.pos = _
    unfold fupd
    rw [if_neg hpne]
    exact hinv.1 r hrl
  · exact List.Pairwise.sublist (List.filter_sublist _) hinv.2

/-- Every atomic step preserves the invariant. -/
theorem sysInv_step {capacity maxGen : Nat} {s s' : SysState}
    (hinv : SysInv s) (h : SysStep capacity maxGen s s') : SysInv s' := by
  cases h with
  | reserveWrite g p hp hs =>
    exact sysInv_acquire hinv g p e_EMPTY Mode.writing (by norm_num [e_EMPTY])
      (fun mo => Ne.symm (tagOf_ne_empty mo)) hs
  | commitWrite g p hm =>
    exact sysInv_release hinv g p Mode.writing _ hm
  | reserveRead g p hp hs =>
    exact sysInv_acquire hinv g p e_FULL Mode.reading (by norm_num [e_FULL])
      (fun mo => Ne.symm (tagOf_ne_full mo)) hs
  | commitRead g p hm =>
    exact sysInv_release hinv g p Mode.reading _ hm
  | abortWrite g p hm =>
    exact sysInv_release hinv g p Mode.writing _ hm
  | setPushWord w => exact hinv
  | setPopWord w => exact hinv

/-- The invariant holds in every reachable state. -/
theorem sysInv_reach {capacity maxGen : Nat} {s : SysState}
    (h : SysReach capacity maxGen s) : SysInv s := by
  induction h with
  | refl =>
    exact ⟨fun r hr => absurd hr (List.not_mem_nil r), List.Pairwise.nil⟩
  | tail _ hstep ih => exact sysInv_step ih hstep

/-- C1: in every state reachable by any interleaving of the atomic
reserve, commit, dispose, abort and cursor operations of any number of
threads, no two simultaneously held reservations name the same
(generation, position) pair; in particular no two threads hold WRITING
ownership, or READING ownership, of the same pair at the same instant. -/
theorem writeReadExclusivity (capacity maxGen : Nat) (s : SysState)
    (h : SysReach capacity maxGen s) :
    s.held.Pairwise (fun a b => ¬(a.gen = b.gen ∧ a.pos = b.pos)) :=
  (sysInv_reach h).2.imp (fun hne hc => hne hc.2)

/-- First intermediate state of the C1 witness: one WRITING reservation
held on position 0, generation 0. -/
def sysW1 : SysState where
  states := fupd initSys.states 0 (encodeElementState 0 e_WRITING)
  pushWord := 0
  popWord := 0
  held := [⟨0, 0, Mode.writing⟩]

/-- Second intermediate state of the C1 witness: two WRITING
reservations held on positions 1 and 0 of a capacity-2 manager. -/
def sysW2 : SysState where
  states := fupd sysW1.states 1 (encodeElementState 0 e_WRITING)
  pushWord := 0
  popWord := 0
  held := [⟨0, 1, Mode.writing⟩, ⟨0, 0, Mode.writing⟩]

/-- C1 witness: the theorem applied to the concrete reachable state with
two simultaneously held WRITING reservations. -/
theorem writeReadExclusivity_witness :
    sysW2.held.Pairwise (fun a b => ¬(a.gen = b.gen ∧ a.pos = b.pos)) := by
  have h1 : SysStep 2 1 initSys sysW1 :=
    SysStep.reserveWrite initSys 0 0 (by decide) (by decide)
  have h2 : SysStep 2 1 sysW1 sysW2 :=
    SysStep.reserveWrite sysW1 0 1 (by decide) (by decide)
  exact writeReadExclusivity 2 1 sysW2
    (Relation.ReflTransGen.tail
      (Relation.ReflTransGen.tail Relation.ReflTransGen.refl h1) h2)
